import Mathlib

/-!
Verification of the theoros dispatch-event decoder, feed-identifier builder,
GCS checkpoint store and EVM validator registry, shallowly embedded from
`src/rust/theoros`.  Field elements and bytes are `Nat`s; every 32-byte
big-endian buffer is made explicit; fallible Rust code returns an explicit
result type, with Rust panics a distinct outcome.
-/

set_option maxRecDepth 8192

namespace Theoros

/-- Outcome of running a Rust function that returns `anyhow::Result` but may also
panic: `ok` models `Ok`, `err` models `Err`, and `panic` models a Rust panic
(e.g. an out-of-range `Vec::drain`). -/
inductive PResult (ε α : Type) where
  | ok : α → PResult ε α
  | err : ε → PResult ε α
  | panic : String → PResult ε α
deriving DecidableEq

def PResult.bind {ε α β : Type} : PResult ε α → (α → PResult ε β) → PResult ε β
  | .ok a, f => f a
  | .err e, _ => .err e
  | .panic m, _ => .panic m

instance {ε : Type} : Monad (PResult ε) where
  pure := .ok
  bind := PResult.bind

/-- Big-endian byte buffer of width `w` for the integer `n`
(`to_be_bytes` / `Felt::to_bytes_be`); values at or above `2 ^ (8 * w)` are
truncated, which never happens for in-range Rust integers. -/
def beBytes : Nat → Nat → List Nat
  | 0, _ => []
  | w + 1, n => beBytes w (n / 256) ++ [n % 256]

/-- Big-endian value of a byte buffer (`uN::from_be_bytes`). -/
def fromBeBytes (bs : List Nat) : Nat :=
  bs.foldl (fun acc b => acc * 256 + b) 0

/-- Modelled from the spec: `uN::from_field_bytes` from `pragma_utils` (not under
`src/`): the Field-Element Reader "turns an ordered sequence of fixed-width source
values into big-endian byte slices of requested width" and performs "no arithmetic
... beyond slicing bytes", i.e. it slices the low `w` bytes of the 32-byte
big-endian buffer of the field element and reads them as a big-endian integer. -/
def fromFieldBytes (w : Nat) (felt : Nat) : Nat :=
  fromBeBytes ((beBytes 32 felt).drop (32 - w))

/-- `starknet::core::types::U256`, a pair of 128-bit words. -/
structure U256 where
  low : Nat
  high : Nat
deriving DecidableEq

/-- `U256::from_words(low, high)`. -/
def U256.from_words (low high : Nat) : U256 := ⟨low, high⟩

/-- Decoder errors, following the taxonomy the code realises through `anyhow`:
a missing field element, an unknown feed-type discriminant, the declared/parsed
update-count mismatch, and a `.context(...)` wrapper around an inner error. -/
inductive DecodeError where
  | missingField : String → DecodeError
  | unknownFeedType : Nat → DecodeError
  | updateCountMismatch : Nat → Nat → DecodeError
  | contextWrap : String → DecodeError → DecodeError
deriving DecidableEq

/-- `data.drain(..k).collect()` on a `Vec<u8>`: removes and returns the first `k`
bytes; Rust panics when the vector holds fewer than `k` bytes. -/
def drain {ε : Type} (k : Nat) (data : List Nat) : PResult ε (List Nat × List Nat) :=
  if k ≤ data.length then .ok (data.take k, data.drop k)
  else .panic "range end out of bounds"

/-- `iter.next().context(msg)?` on the field-element iterator. -/
def nextFelt (msg : String) (data : List Nat) : PResult DecodeError (Nat × List Nat) :=
  match data with
  | [] => .err (.missingField msg)
  | f :: rest => .ok (f, rest)

/-- One lowercase hexadecimal digit, as produced by `hex::encode`. -/
def hexDigitChar (n : Nat) : Char :=
  if n < 10 then Char.ofNat (48 + n) else Char.ofNat (87 + n)

/-- The two lowercase hex characters of one byte. -/
def hexEncodeByte (b : Nat) : List Char :=
  [hexDigitChar (b / 16), hexDigitChar (b % 16)]

/-- `hex::encode` over a byte buffer. -/
def hexEncode : List Nat → List Char
  | [] => []
  | b :: rest => hexEncodeByte b ++ hexEncode rest

/-- `build_feed_id`: concatenates the big-endian bytes of the four inputs and
hex-encodes them behind the fixed `0x` prefix
(`format!("0x{}", hex::encode(&bytes))`). -/
def build_feed_id (raw_asset_class raw_feed_type pair_id_high pair_id_low : Nat) :
    String :=
  let bytes : List Nat :=
    beBytes 2 raw_asset_class ++ beBytes 2 raw_feed_type ++
      beBytes 16 pair_id_high ++ beBytes 16 pair_id_low
  "0x" ++ String.mk (hexEncode bytes)

/-- Modelled from the spec: the numeric `u16` discriminant of the single current
feed-type variant ("UniqueSpotMedian"); the constant lives in `pragma_feeds`,
outside `src/`, so a representative value is fixed here. -/
def UNIQUE_SPOT_MEDIAN_CODE : Nat := 0

/-- Modelled from the spec: `pragma_feeds::FeedType` (not under `src/`); updates are
"a polymorphic variant set keyed by a (asset_class, feed_type) discriminant pair"
with the single current variant SpotMedian. -/
inductive FeedType where
  | uniqueSpotMedian
deriving DecidableEq

/-- Modelled from the spec: `FeedType::try_from(u16)` resolves the discriminant
"against the known discriminant set, else fails" with `UnknownFeedType`. -/
def FeedType.tryFrom (code : Nat) : Except DecodeError FeedType :=
  if code = UNIQUE_SPOT_MEDIAN_CODE then .ok .uniqueSpotMedian
  else .error (.unknownFeedType code)

structure MetadataUpdate where
  timestamp : Nat
  num_sources_aggregated : Nat
  decimals : Nat
deriving DecidableEq

structure SpotMedianUpdate where
  pair_id : U256
  metadata : MetadataUpdate
  price : U256
  volume : U256
deriving DecidableEq

/-- `DispatchUpdate::SpotMedian { update, feed_id }`. -/
inductive DispatchUpdate where
  | spotMedian : SpotMedianUpdate → String → DispatchUpdate
deriving DecidableEq

/-- `SpotMedianUpdate::from_starknet_event_data` over the flattened body bytes:
timestamp, source count, decimals, then price and volume as high/low 128-bit
halves; the pair id is left at the zero placeholder, populated by the caller. -/
def SpotMedianUpdate.from_starknet_event_data (data : List Nat) :
    PResult DecodeError SpotMedianUpdate := do
  let (tsB, data) ← drain 8 data
  let (nsB, data) ← drain 2 data
  let (decB, data) ← drain 1 data
  let (phB, data) ← drain 16 data
  let (plB, data) ← drain 16 data
  let (vhB, data) ← drain 16 data
  let (vlB, _) ← drain 16 data
  pure {
    pair_id := U256.from_words 0 0,
    metadata := {
      timestamp := fromBeBytes tsB,
      num_sources_aggregated := fromBeBytes nsB,
      decimals := fromBeBytes decB },
    price := U256.from_words (fromBeBytes plB) (fromBeBytes phB),
    volume := U256.from_words (fromBeBytes vlB) (fromBeBytes vhB) }

/-- `SpotMedianUpdate::to_bytes`. -/
def SpotMedianUpdate.to_bytes (u : SpotMedianUpdate) : List Nat :=
  beBytes 16 u.pair_id.low ++ beBytes 16 u.pair_id.high ++
  beBytes 8 u.metadata.timestamp ++ beBytes 2 u.metadata.num_sources_aggregated ++
  beBytes 1 u.metadata.decimals ++
  beBytes 16 u.price.high ++ beBytes 16 u.price.low ++
  beBytes 16 u.volume.high ++ beBytes 16 u.volume.low

/-- `DispatchUpdate::from_starknet_event_data`: asset class, feed type (resolved
against the known set), pair id as a 16-byte high half plus a 12-byte low half
zero-padded at the top to 16 bytes, the feed identifier built from the raw
discriminants and halves, then the variant payload. -/
def DispatchUpdate.from_starknet_event_data (data : List Nat) :
    PResult DecodeError DispatchUpdate := do
  let (acB, data) ← drain 2 data
  let raw_asset_class := fromBeBytes acB
  let (ftB, data) ← drain 2 data
  let raw_feed_type := fromBeBytes ftB
  match FeedType.tryFrom raw_feed_type with
  | .error e => .err e
  | .ok feed_type => do
    let (phB, data) ← drain 16 data
    let pair_id_high := fromBeBytes phB
    let (plB, data) ← drain 12 data
    let pair_id_low := fromBeBytes (List.replicate 4 0 ++ plB)
    let pair_id := U256.from_words pair_id_low pair_id_high
    let feed_id := build_feed_id raw_asset_class raw_feed_type pair_id_high pair_id_low
    match feed_type with
    | .uniqueSpotMedian => do
      let res ← SpotMedianUpdate.from_starknet_event_data data
      pure (.spotMedian { res with pair_id := pair_id } feed_id)

def SPOT_MEDIAN_UPDATE_SIZE : Nat := 107

def MESSAGE_HEADER_FELT_SIZE : Nat := 10

/-- The body flattening: every remaining field element contributes the low 16 bytes
of its 32-byte big-endian buffer, concatenated in order
(`bytes.split_at(16).1`). -/
def flattenBody : List Nat → List Nat
  | [] => []
  | fe :: rest => (beBytes 32 fe).drop 16 ++ flattenBody rest

/-- The per-update loop of `DispatchMessageBody::from_starknet_event_data`: parse
one update from a clone of the remaining bytes, then drain the variant's fixed
width from the shared buffer and push, `nb_updated` times. -/
def parseUpdates : Nat → List Nat → List DispatchUpdate →
    PResult DecodeError (List DispatchUpdate × List Nat)
  | 0, _data, acc => .ok (acc.reverse, _data)
  | n + 1, data, acc =>
    match DispatchUpdate.from_starknet_event_data data with
    | .err e => .err (.contextWrap "Failed to parse update" e)
    | .panic m => .panic m
    | .ok update =>
      match update with
      | .spotMedian _ _ =>
        match @drain DecodeError SPOT_MEDIAN_UPDATE_SIZE data with
        | .err e => .err e
        | .panic m => .panic m
        | .ok (_, rest) => parseUpdates n rest (update :: acc)

structure DispatchMessageBody where
  nb_updated : Nat
  updates : List DispatchUpdate
deriving DecidableEq

/-- `DispatchMessageBody::from_starknet_event_data`: flatten the field elements to
bytes, read one byte as `nb_updated`, run the update loop, then compare the number
of parsed updates against the declared count. -/
def DispatchMessageBody.from_starknet_event_data (felts : List Nat) :
    PResult DecodeError DispatchMessageBody := do
  let data := flattenBody felts
  let (nbB, data) ← drain 1 data
  let nb_updated := fromBeBytes nbB
  match parseUpdates nb_updated data [] with
  | .err e => .err e
  | .panic m => .panic m
  | .ok (updates, _) =>
    if updates.length ≠ nb_updated then
      .err (.updateCountMismatch nb_updated updates.length)
    else
      .ok { nb_updated := nb_updated, updates := updates }

structure DispatchMessageHeader where
  version : Nat
  nonce : Nat
  origin : Nat
  sender : U256
  destination : Nat
  recipient : U256
deriving DecidableEq

/-- `DispatchMessageHeader::from_starknet_event_data`: eight field elements read in
order, each reduced to its requested width. -/
def DispatchMessageHeader.from_starknet_event_data (data : List Nat) :
    PResult DecodeError DispatchMessageHeader := do
  let (v, data) ← nextFelt "Missing version" data
  let (n, data) ← nextFelt "Missing nonce" data
  let (o, data) ← nextFelt "Missing origin" data
  let (s1, data) ← nextFelt "Missing sender part 1" data
  let (s2, data) ← nextFelt "Missing sender part 2" data
  let (d, data) ← nextFelt "Missing destination" data
  let (r1, data) ← nextFelt "Missing recipient part 1" data
  let (r2, _) ← nextFelt "Missing recipient part 2" data
  pure {
    version := fromFieldBytes 1 v,
    nonce := fromFieldBytes 4 n,
    origin := fromFieldBytes 4 o,
    sender := U256.from_words (fromFieldBytes 16 s1) (fromFieldBytes 16 s2),
    destination := fromFieldBytes 4 d,
    recipient := U256.from_words (fromFieldBytes 16 r1) (fromFieldBytes 16 r2) }

structure DispatchMessage where
  header : DispatchMessageHeader
  body : DispatchMessageBody
deriving DecidableEq

structure DispatchEvent where
  sender : U256
  destination_domain : Nat
  recipient_address : U256
  message : DispatchMessage
deriving DecidableEq

/-- `DispatchEvent::from_starknet_event_data`: two elements for the sender, one for
the destination domain, two for the recipient; the header is parsed from the
remaining iterator, and the body from the elements after skipping
`MESSAGE_HEADER_FELT_SIZE` further ones. -/
def DispatchEvent.from_starknet_event_data (data : List Nat) :
    PResult DecodeError DispatchEvent := do
  let (s1, rest) ← nextFelt "Missing sender part 1" data
  let (s2, rest) ← nextFelt "Missing sender part 2" rest
  let sender := U256.from_words (fromFieldBytes 16 s1) (fromFieldBytes 16 s2)
  let (dd, rest) ← nextFelt "Missing destination" rest
  let destination_domain := fromFieldBytes 4 dd
  let (r1, rest) ← nextFelt "Missing recipient part 1" rest
  let (r2, rest) ← nextFelt "Missing recipient part 2" rest
  let recipient_address := U256.from_words (fromFieldBytes 16 r1) (fromFieldBytes 16 r2)
  let header ← DispatchMessageHeader.from_starknet_event_data rest
  let body_data := rest.drop MESSAGE_HEADER_FELT_SIZE
  let body ← DispatchMessageBody.from_starknet_event_data body_data
  pure {
    sender := sender,
    destination_domain := destination_domain,
    recipient_address := recipient_address,
    message := { header := header, body := body } }

/-- The externally defined signed checkpoint, opaque to this core: only its
identity matters to the storage claims. -/
structure SignedCheckpointWithMessageId where
  value : Nat
deriving DecidableEq

/-- Storage errors: the transport's not-found error for an absent object, and a
deserialize failure on a present object. -/
inductive StorageError where
  | notFound : String → StorageError
  | deserialize : String → StorageError
deriving DecidableEq

/-- `GcsStorageClient::get_checkpoint_key`. -/
def get_checkpoint_key (index : Nat) : String :=
  "checkpoint_" ++ toString index ++ "_with_id.json"

/-- `GcsStorageClient::get_latest_checkpoint_key`. -/
def get_latest_checkpoint_key : String := "checkpoint_latest_index.json"

/-- `ya_gcp::StorageClient::get_object` (external transport): returns the object
bytes, reporting an absent object as an error — its success type carries no
`Option`. -/
def gcsGetObject (store : String → Option (List Nat)) (key : String) :
    Except StorageError (List Nat) :=
  match store key with
  | some bytes => .ok bytes
  | none => .error (.notFound key)

/-- `GcsStorageClient::fetch`: `get_object` followed by `serde_json::from_slice`,
both behind `?`; the bucket content and the deserializer are the injected
parameters. -/
def GcsStorageClient.fetch (store : String → Option (List Nat))
    (deser : List Nat → Except String SignedCheckpointWithMessageId) (index : Nat) :
    Except StorageError (Option SignedCheckpointWithMessageId) :=
  match gcsGetObject store (get_checkpoint_key index) with
  | .error e => .error e
  | .ok res =>
    match deser res with
    | .error e => .error (.deserialize e)
    | .ok v => .ok (some v)

/-- One chain entry of the EVM configuration. -/
structure ChainConfig where
  rpc_url : String
  hyperlane_address : String
deriving DecidableEq

structure EvmConfig where
  chains : List (String × ChainConfig)

/-- Registry build errors, by provenance: `rpc_url.parse()?` propagated unchanged,
the invalid-address error built with the chain name interpolated, and the
validator query error propagated unchanged. -/
inductive RegistryError where
  | urlParse : String → RegistryError
  | invalidAddress : String → String → RegistryError
  | rpc : String → RegistryError
deriving DecidableEq

/-- The rendered `anyhow` message of each registry error: only the invalid-address
arm interpolates the chain name
(`"Invalid hyperlane address for {chain_name:?}: {e}"`). -/
def RegistryError.message : RegistryError → String
  | .urlParse e => e
  | .invalidAddress chain e => "Invalid hyperlane address for " ++ chain ++ ": " ++ e
  | .rpc e => e

/-- External collaborators of the registry build, injected as parameters:
`url::Url::parse`, alloy `Address::from_hex`, and
`HyperlaneClient::get_validators_with_index` (the client lives outside `src/`).
Each sees only the arguments the code passes it. -/
structure EvmExternals where
  parseUrl : String → Except String Unit
  parseAddress : String → Except String Unit
  getValidatorsWithIndex : String → String → Except String (List (Nat × Nat))

/-- The per-chain body of the `from_config` loop: URL parse, address parse with the
chain-naming error, then the validator query. -/
def resolveChain (ext : EvmExternals) (entry : String × ChainConfig) :
    Except RegistryError (List (Nat × Nat)) :=
  match ext.parseUrl entry.2.rpc_url with
  | .error e => .error (.urlParse e)
  | .ok _ =>
    match ext.parseAddress entry.2.hyperlane_address with
    | .error e => .error (.invalidAddress entry.1 e)
    | .ok _ =>
      match ext.getValidatorsWithIndex entry.2.rpc_url entry.2.hyperlane_address with
      | .error e => .error (.rpc e)
      | .ok vals => .ok vals

/-- The `for (chain_name, chain_config) in config.chains()` loop: fail-fast on the
first failing chain, otherwise insert the chain's validators and continue. -/
def fromConfigGo (ext : EvmExternals) :
    List (String × ChainConfig) → List (String × List (Nat × Nat)) →
    Except RegistryError (List (String × List (Nat × Nat)))
  | [], acc => .ok acc
  | entry :: rest, acc =>
    match resolveChain ext entry with
    | .error e => .error e
    | .ok validators => fromConfigGo ext rest (acc ++ [(entry.1, validators)])

/-- `HyperlaneValidatorsMapping::from_config`. -/
def HyperlaneValidatorsMapping.from_config (ext : EvmExternals) (config : EvmConfig) :
    Except RegistryError (List (String × List (Nat × Nat))) :=
  fromConfigGo ext config.chains []

/-- `HyperlaneValidatorsMapping::get_validators`: a pure map lookup. -/
def HyperlaneValidatorsMapping.get_validators
    (m : List (String × List (Nat × Nat))) (chain_name : String) :
    Option (List (Nat × Nat)) :=
  m.lookup chain_name

/-- `HyperlaneValidatorsMapping::chain_names`: the configured key set. -/
def HyperlaneValidatorsMapping.chain_names (m : List (String × List (Nat × Nat))) :
    List String :=
  m.map Prod.fst

/-- `HyperlaneValidatorsMapping::is_supported_chain`: key membership. -/
def HyperlaneValidatorsMapping.is_supported_chain
    (m : List (String × List (Nat × Nat))) (chain : String) : Bool :=
  (m.lookup chain).isSome

/-- A concrete event-data sequence used to witness the layout claims: five leading
elements, ten header elements, then seven body elements whose flattened bytes
declare one all-zero SpotMedian update. -/
def witnessEventData : List Nat :=
  List.replicate 15 0 ++ (2 ^ 120 :: List.replicate 6 0)

/-- The decoded event for `witnessEventData`. -/
def witnessDispatchEvent : DispatchEvent :=
  { sender := ⟨0, 0⟩,
    destination_domain := 0,
    recipient_address := ⟨0, 0⟩,
    message := {
      header := {
        version := 0, nonce := 0, origin := 0,
        sender := ⟨0, 0⟩, destination := 0, recipient := ⟨0, 0⟩ },
      body := {
        nb_updated := 1,
        updates := [DispatchUpdate.spotMedian
          ⟨⟨0, 0⟩, ⟨0, 0, 0⟩, ⟨0, 0⟩, ⟨0, 0⟩⟩ (build_feed_id 0 0 0 0)] } } }

/-- A concrete 107-byte update encoding used to witness the per-update invariants:
asset class 0, feed type 0, pair-id high half 1, 12-byte low half 2, and an
all-zero SpotMedian payload. -/
def witnessUpdateBytes : List Nat :=
  List.replicate 4 0 ++ (List.replicate 15 0 ++ [1]) ++
    (List.replicate 11 0 ++ [2]) ++ List.replicate 75 0

/-- The decoded update for `witnessUpdateBytes`. -/
def witnessUpdate : DispatchUpdate :=
  .spotMedian ⟨⟨2, 1⟩, ⟨0, 0, 0⟩, ⟨0, 0⟩, ⟨0, 0⟩⟩ (build_feed_id 0 0 1 2)

/-- The value of a lowercase hex character, inverse of `hexDigitChar`. -/
def hexValChar (c : Char) : Nat :=
  if 97 ≤ c.toNat then c.toNat - 87 else c.toNat - 48

/-- Reads a list of hex characters back into the integer they encode. -/
def hexFold (cs : List Char) : Nat :=
  cs.foldl (fun acc c => acc * 16 + hexValChar c) 0

@[simp] theorem PResult.bind_ok {ε α β : Type} (a : α) (f : α → PResult ε β) :
    PResult.bind (.ok a) f = f a := rfl

@[simp] theorem PResult.bind_err {ε α β : Type} (e : ε) (f : α → PResult ε β) :
    PResult.bind (.err e) f = .err e := rfl

@[simp] theorem PResult.bind_panic {ε α β : Type} (m : String) (f : α → PResult ε β) :
    PResult.bind (.panic m) f = .panic m := rfl

@[simp] theorem PResult.monad_bind_eq {ε α β : Type} (x : PResult ε α)
    (f : α → PResult ε β) : x >>= f = PResult.bind x f := rfl

@[simp] theorem PResult.pure_eq_ok {ε α : Type} (a : α) :
    (pure a : PResult ε α) = .ok a := rfl

@[simp] theorem beBytes_length (w n : Nat) : (beBytes w n).length = w := by
  induction w generalizing n with
  | zero => rfl
  | succ w ih => simp [beBytes, ih]

theorem fromBeBytes_foldl (a : Nat) (bs : List Nat) :
    bs.foldl (fun acc b => acc * 256 + b) a = a * 256 ^ bs.length + fromBeBytes bs := by
  induction bs generalizing a with
  | nil => simp [fromBeBytes]
  | cons b t ih =>
    simp only [List.foldl_cons, List.length_cons, fromBeBytes, Nat.zero_mul, Nat.zero_add]
    rw [ih (a * 256 + b), ih b]
    ring

theorem fromBeBytes_append (xs ys : List Nat) :
    fromBeBytes (xs ++ ys) = fromBeBytes xs * 256 ^ ys.length + fromBeBytes ys := by
  unfold fromBeBytes
  rw [List.foldl_append]
  exact fromBeBytes_foldl _ ys

@[simp] theorem fromBeBytes_nil : fromBeBytes [] = 0 := rfl

@[simp] theorem fromBeBytes_singleton (b : Nat) : fromBeBytes [b] = b := by
  simp [fromBeBytes]

theorem fromBeBytes_beBytes (w n : Nat) : fromBeBytes (beBytes w n) = n % 256 ^ w := by
  induction w generalizing n with
  | zero => simp [beBytes, Nat.mod_one]
  | succ w ih =>
    rw [beBytes, fromBeBytes_append, fromBeBytes_singleton, ih]
    simp only [List.length_singleton, pow_one]
    rw [pow_succ', Nat.mod_mul]
    ring

theorem fromBeBytes_lt (bs : List Nat) (h : ∀ b ∈ bs, b < 256) :
    fromBeBytes bs < 256 ^ bs.length := by
  induction bs with
  | nil => simp [fromBeBytes]
  | cons b t ih =>
    have hb : b < 256 := h b (by simp)
    have ht := ih (fun x hx => h x (by simp [hx]))
    have : fromBeBytes (b :: t) = b * 256 ^ t.length + fromBeBytes t := by
      have := fromBeBytes_append [b] t
      simpa using this
    rw [this, List.length_cons, pow_succ]
    calc b * 256 ^ t.length + fromBeBytes t
        < b * 256 ^ t.length + 256 ^ t.length := by omega
      _ = (b + 1) * 256 ^ t.length := by ring
      _ ≤ 256 * 256 ^ t.length := by
          have : b + 1 ≤ 256 := by omega
          exact Nat.mul_le_mul_right _ this
      _ = 256 ^ t.length * 256 := by ring

theorem fromBeBytes_replicate_zero (k : Nat) (bs : List Nat) :
    fromBeBytes (List.replicate k 0 ++ bs) = fromBeBytes bs := by
  rw [fromBeBytes_append]
  have : fromBeBytes (List.replicate k 0) = 0 := by
    induction k with
    | zero => rfl
    | succ k ih =>
      rw [List.replicate_succ]
      have := fromBeBytes_append [0] (List.replicate k 0)
      simpa [ih] using this
  simp [this]

theorem beBytes_mem_lt (w n : Nat) : ∀ b ∈ beBytes w n, b < 256 := by
  induction w generalizing n with
  | zero => simp [beBytes]
  | succ w ih =>
    intro b hb
    rw [beBytes, List.mem_append] at hb
    rcases hb with hb | hb
    · exact ih _ b hb
    · simp at hb
      omega

theorem beBytes_split (a b n : Nat) :
    beBytes (a + b) n = beBytes a (n / 256 ^ b) ++ beBytes b (n % 256 ^ b) := by
  induction b generalizing n with
  | zero => simp [beBytes]
  | succ b ih =>
    have h1 : a + (b + 1) = (a + b) + 1 := by omega
    rw [h1, beBytes, ih (n / 256)]
    have h2 : n / 256 / 256 ^ b = n / 256 ^ (b + 1) := by
      rw [Nat.div_div_eq_div_mul, pow_succ']
    have h3 : n / 256 % 256 ^ b = n % 256 ^ (b + 1) / 256 := by
      rw [pow_succ', Nat.mod_mul_right_div_self]
    have h4 : n % 256 = n % 256 ^ (b + 1) % 256 := by
      rw [Nat.mod_mod_of_dvd]
      exact dvd_pow_self 256 (Nat.succ_ne_zero b)
    rw [h2, h3, h4]
    simp [beBytes]

@[simp] theorem beBytes_zero (w : Nat) : beBytes w 0 = List.replicate w 0 := by
  induction w with
  | zero => rfl
  | succ w ih => rw [beBytes, ih, List.replicate_succ']

theorem drain_full {ε : Type} (k : Nat) (xs : List Nat) (h : xs.length = k) :
    @drain ε k xs = .ok (xs, []) := by
  subst h
  simp [drain]

theorem drain_exact {ε : Type} (k : Nat) (xs rest : List Nat) (h : xs.length = k) :
    @drain ε k (xs ++ rest) = .ok (xs, rest) := by
  subst h
  simp [drain, List.take_left, List.drop_left]

theorem drain_ne_err {ε : Type} (k : Nat) (data : List Nat) (e : ε) :
    @drain ε k data ≠ .err e := by
  intro h
  unfold drain at h
  split at h <;> cases h

theorem drain_eq_ok {ε : Type} (k : Nat) (data xs rest : List Nat)
    (h : @drain ε k data = .ok (xs, rest)) :
    k ≤ data.length ∧ xs = data.take k ∧ rest = data.drop k := by
  unfold drain at h
  split at h
  · cases h
    exact ⟨by assumption, rfl, rfl⟩
  · cases h

theorem hexEncode_append (xs ys : List Nat) :
    hexEncode (xs ++ ys) = hexEncode xs ++ hexEncode ys := by
  induction xs with
  | nil => rfl
  | cons b t ih => simp [hexEncode, ih]

theorem hexEncode_length (bs : List Nat) : (hexEncode bs).length = 2 * bs.length := by
  induction bs with
  | nil => rfl
  | cons b t ih =>
    simp [hexEncode, hexEncodeByte, ih]
    omega

theorem hexValChar_hexDigitChar (n : Nat) (h : n < 16) :
    hexValChar (hexDigitChar n) = n := by
  interval_cases n <;> decide

theorem hexFold_aux (bs : List Nat) (a : Nat) (h : ∀ b ∈ bs, b < 256) :
    (hexEncode bs).foldl (fun acc c => acc * 16 + hexValChar c) a =
      bs.foldl (fun acc b => acc * 256 + b) a := by
  induction bs generalizing a with
  | nil => rfl
  | cons b t ih =>
    have hb : b < 256 := h b (by simp)
    have h1 : hexValChar (hexDigitChar (b / 16)) = b / 16 :=
      hexValChar_hexDigitChar _ (by omega)
    have h2 : hexValChar (hexDigitChar (b % 16)) = b % 16 :=
      hexValChar_hexDigitChar _ (by omega)
    have hstep : (a * 16 + b / 16) * 16 + b % 16 = a * 256 + b := by omega
    simp only [hexEncode, hexEncodeByte, List.cons_append, List.nil_append,
      List.foldl_cons, h1, h2, hstep, List.foldl_nil]
    exact ih _ (fun x hx => h x (by simp [hx]))

theorem hexFold_hexEncode (bs : List Nat) (h : ∀ b ∈ bs, b < 256) :
    hexFold (hexEncode bs) = fromBeBytes bs :=
  hexFold_aux bs 0 h

theorem hexDigitChar_is_hexchar (n : Nat) (h : n < 16) :
    ((hexDigitChar n).isDigit ||
      (97 ≤ (hexDigitChar n).toNat && (hexDigitChar n).toNat ≤ 102)) = true := by
  interval_cases n <;> decide

theorem hexEncode_all_hexchars (bs : List Nat) (h : ∀ b ∈ bs, b < 256) :
    (hexEncode bs).all
      (fun c => c.isDigit || (97 ≤ c.toNat && c.toNat ≤ 102)) = true := by
  induction bs with
  | nil => rfl
  | cons b t ih =>
    have hb : b < 256 := h b (by simp)
    simp only [hexEncode, hexEncodeByte, List.cons_append, List.nil_append, List.all_cons,
      hexDigitChar_is_hexchar (b / 16) (by omega),
      hexDigitChar_is_hexchar (b % 16) (by omega), Bool.true_and]
    exact ih (fun x hx => h x (by simp [hx]))

theorem build_feed_id_toList (ac ft ph pl : Nat) :
    (build_feed_id ac ft ph pl).toList =
      '0' :: 'x' :: hexEncode
        (beBytes 2 ac ++ beBytes 2 ft ++ beBytes 16 ph ++ beBytes 16 pl) := rfl

/-- Claim C5: for every quadruple, `build_feed_id` returns exactly the string "0x"
followed by the lowercase hex encoding of the 36-byte big-endian concatenation
asset_class(2B) || feed_type(2B) || pair_id_high(16B) || pair_id_low(16B); it is
a total function, hence never fails. -/
theorem build_feed_id_characterisation (ac ft ph pl : Nat) :
    build_feed_id ac ft ph pl =
      "0x" ++ String.mk (hexEncode
        (beBytes 2 ac ++ beBytes 2 ft ++ beBytes 16 ph ++ beBytes 16 pl)) ∧
    (beBytes 2 ac ++ beBytes 2 ft ++ beBytes 16 ph ++ beBytes 16 pl).length = 36 ∧
    (build_feed_id ac ft ph pl).length = 74 ∧
    (build_feed_id ac ft ph pl).toList.take 2 = ['0', 'x'] ∧
    ((build_feed_id ac ft ph pl).toList.drop 2).all
      (fun c => c.isDigit || (97 ≤ c.toNat && c.toNat ≤ 102)) = true := by
  have hlen36 :
      (beBytes 2 ac ++ beBytes 2 ft ++ beBytes 16 ph ++ beBytes 16 pl).length = 36 := by
    simp
  refine ⟨rfl, hlen36, ?_, ?_, ?_⟩
  · have : (build_feed_id ac ft ph pl).length =
        (build_feed_id ac ft ph pl).toList.length := rfl
    rw [this, build_feed_id_toList]
    simp [hexEncode_length, hlen36]
  · rw [build_feed_id_toList]
    rfl
  · rw [build_feed_id_toList]
    simp only [List.drop_succ_cons, List.drop_zero]
    exact hexEncode_all_hexchars _ (by
      intro b hb
      simp only [List.mem_append] at hb
      rcases hb with ((hb | hb) | hb) | hb <;> exact beBytes_mem_lt _ _ b hb)

/-- Claim C7: `build_feed_id` is deterministic (equal input quadruples yield the
identical string), and for fixed asset class, feed type and pair-id high half it is
injective in the pair-id low half. -/
theorem build_feed_id_deterministic_injective (ac ft ph pl1 pl2 : Nat)
    (h1 : pl1 < 2 ^ 128) (h2 : pl2 < 2 ^ 128) :
    (∀ ac2 ft2 ph2 pl2b, ac = ac2 → ft = ft2 → ph = ph2 → pl1 = pl2b →
      build_feed_id ac ft ph pl1 = build_feed_id ac2 ft2 ph2 pl2b) ∧
    (pl1 ≠ pl2 → build_feed_id ac ft ph pl1 ≠ build_feed_id ac ft ph pl2) := by
  have h256 : (2 : Nat) ^ 128 = 256 ^ 16 := by norm_num
  constructor
  · intro ac2 ft2 ph2 pl2b ha hf hp hl
    subst ha; subst hf; subst hp; subst hl
    rfl
  · intro hne heq
    apply hne
    have hl := congrArg String.toList heq
    rw [build_feed_id_toList, build_feed_id_toList] at hl
    simp only [List.cons.injEq, true_and] at hl
    simp only [hexEncode_append] at hl
    have hl2 := List.append_cancel_left hl
    have hv := congrArg hexFold hl2
    rw [hexFold_hexEncode _ (beBytes_mem_lt 16 pl1),
      hexFold_hexEncode _ (beBytes_mem_lt 16 pl2)] at hv
    rw [fromBeBytes_beBytes, fromBeBytes_beBytes] at hv
    rwa [Nat.mod_eq_of_lt (h256 ▸ h1), Nat.mod_eq_of_lt (h256 ▸ h2)] at hv

/-- Claim C3: serialising a `SpotMedianUpdate` with `to_bytes` and decoding the
variant payload (the bytes after the 32-byte pair id) back with
`SpotMedianUpdate::from_starknet_event_data` restores the metadata, price and
volume; the pair id comes back as the zero placeholder, excluded from the law. -/
theorem spot_median_roundtrip (u : SpotMedianUpdate)
    (hts : u.metadata.timestamp < 2 ^ 64)
    (hns : u.metadata.num_sources_aggregated < 2 ^ 16)
    (hdec : u.metadata.decimals < 2 ^ 8)
    (hph : u.price.high < 2 ^ 128) (hpl : u.price.low < 2 ^ 128)
    (hvh : u.volume.high < 2 ^ 128) (hvl : u.volume.low < 2 ^ 128) :
    SpotMedianUpdate.from_starknet_event_data (u.to_bytes.drop 32) =
      .ok { u with pair_id := U256.from_words 0 0 } := by
  obtain ⟨⟨pidl, pidh⟩, ⟨ts, ns, dec⟩, ⟨pl, ph⟩, ⟨vl, vh⟩⟩ := u
  dsimp only at hts hns hdec hph hpl hvh hvl
  have hdrop :
      (SpotMedianUpdate.mk ⟨pidl, pidh⟩ ⟨ts, ns, dec⟩ ⟨pl, ph⟩ ⟨vl, vh⟩).to_bytes.drop 32 =
      beBytes 8 ts ++ (beBytes 2 ns ++ (beBytes 1 dec ++ (beBytes 16 ph ++
        (beBytes 16 pl ++ (beBytes 16 vh ++ beBytes 16 vl))))) := by
    have h1 :
        (SpotMedianUpdate.mk ⟨pidl, pidh⟩ ⟨ts, ns, dec⟩ ⟨pl, ph⟩ ⟨vl, vh⟩).to_bytes =
        (beBytes 16 pidl ++ beBytes 16 pidh) ++
          (beBytes 8 ts ++ (beBytes 2 ns ++ (beBytes 1 dec ++ (beBytes 16 ph ++
            (beBytes 16 pl ++ (beBytes 16 vh ++ beBytes 16 vl)))))) := by
      simp [SpotMedianUpdate.to_bytes, List.append_assoc]
    have h2 : (beBytes 16 pidl ++ beBytes 16 pidh).length = 32 := by simp
    rw [h1, ← h2, List.drop_left]
  have hp256 : (256 : Nat) ^ 8 = 2 ^ 64 := by norm_num
  have hp2562 : (256 : Nat) ^ 2 = 2 ^ 16 := by norm_num
  have hp2561 : (256 : Nat) ^ 1 = 2 ^ 8 := by norm_num
  have hp25616 : (256 : Nat) ^ 16 = 2 ^ 128 := by norm_num
  have e1 : ts % 256 ^ 8 = ts := by rw [hp256]; exact Nat.mod_eq_of_lt hts
  have e2 : ns % 256 ^ 2 = ns := by rw [hp2562]; exact Nat.mod_eq_of_lt hns
  have e3 : dec % 256 ^ 1 = dec := by rw [hp2561]; exact Nat.mod_eq_of_lt hdec
  have e4 : ph % 256 ^ 16 = ph := by rw [hp25616]; exact Nat.mod_eq_of_lt hph
  have e5 : pl % 256 ^ 16 = pl := by rw [hp25616]; exact Nat.mod_eq_of_lt hpl
  have e6 : vh % 256 ^ 16 = vh := by rw [hp25616]; exact Nat.mod_eq_of_lt hvh
  have e7 : vl % 256 ^ 16 = vl := by rw [hp25616]; exact Nat.mod_eq_of_lt hvl
  rw [hdrop]
  simp [SpotMedianUpdate.from_starknet_event_data, drain_exact, drain_full,
    fromBeBytes_beBytes, e1, e2, e3, e4, e5, e6, e7, U256.from_words]
  norm_num at hts hns hdec hph hpl hvh hvl
  exact ⟨⟨hts, hns, hdec⟩, ⟨hpl, hph⟩, hvl, hvh⟩

/-- Witness for C3 at a concrete update. -/
theorem spot_median_roundtrip_witness :
    SpotMedianUpdate.from_starknet_event_data
      ((SpotMedianUpdate.mk ⟨9, 10⟩ ⟨1, 2, 3⟩ ⟨5, 6⟩ ⟨7, 8⟩).to_bytes.drop 32) =
      .ok (SpotMedianUpdate.mk ⟨0, 0⟩ ⟨1, 2, 3⟩ ⟨5, 6⟩ ⟨7, 8⟩) :=
  spot_median_roundtrip (SpotMedianUpdate.mk ⟨9, 10⟩ ⟨1, 2, 3⟩ ⟨5, 6⟩ ⟨7, 8⟩)
    (by norm_num) (by norm_num) (by norm_num) (by norm_num) (by norm_num)
    (by norm_num) (by norm_num)

theorem decode_cons15 (a0 a1 a2 a3 a4 a5 a6 a7 a8 a9 a10 a11 a12 a13 a14 : Nat)
    (rest : List Nat) :
    DispatchEvent.from_starknet_event_data
      (a0 :: a1 :: a2 :: a3 :: a4 :: a5 :: a6 :: a7 :: a8 :: a9 :: a10 :: a11 ::
        a12 :: a13 :: a14 :: rest) =
    PResult.bind (DispatchMessageBody.from_starknet_event_data rest) (fun body =>
      .ok {
        sender := U256.from_words (fromFieldBytes 16 a0) (fromFieldBytes 16 a1),
        destination_domain := fromFieldBytes 4 a2,
        recipient_address := U256.from_words (fromFieldBytes 16 a3) (fromFieldBytes 16 a4),
        message := {
          header := {
            version := fromFieldBytes 1 a5,
            nonce := fromFieldBytes 4 a6,
            origin := fromFieldBytes 4 a7,
            sender := U256.from_words (fromFieldBytes 16 a8) (fromFieldBytes 16 a9),
            destination := fromFieldBytes 4 a10,
            recipient := U256.from_words (fromFieldBytes 16 a11) (fromFieldBytes 16 a12) },
          body := body } }) := rfl

theorem body_ok_nonempty (felts : List Nat) (b : DispatchMessageBody)
    (h : DispatchMessageBody.from_starknet_event_data felts = .ok b) : felts ≠ [] := by
  intro hnil
  subst hnil
  cases h

/-- Claim C4: every successfully decoded event reads the header from the ten
elements after the 2+1+2 leading ones (only the first eight of those ten carry the
header fields), and the body is decoded from exactly the elements from position 16
(1-based) onward. -/
theorem dispatch_header_layout (data : List Nat) (ev : DispatchEvent)
    (h : DispatchEvent.from_starknet_event_data data = .ok ev) :
    16 ≤ data.length ∧
    ev.message.header.version = fromFieldBytes 1 (data.getD 5 0) ∧
    ev.message.header.nonce = fromFieldBytes 4 (data.getD 6 0) ∧
    ev.message.header.origin = fromFieldBytes 4 (data.getD 7 0) ∧
    ev.message.header.sender =
      U256.from_words (fromFieldBytes 16 (data.getD 8 0))
        (fromFieldBytes 16 (data.getD 9 0)) ∧
    ev.message.header.destination = fromFieldBytes 4 (data.getD 10 0) ∧
    ev.message.header.recipient =
      U256.from_words (fromFieldBytes 16 (data.getD 11 0))
        (fromFieldBytes 16 (data.getD 12 0)) ∧
    DispatchMessageBody.from_starknet_event_data (data.drop 15) =
      .ok ev.message.body := by
  rcases data with _ | ⟨a0, _ | ⟨a1, _ | ⟨a2, _ | ⟨a3, _ | ⟨a4, _ | ⟨a5, _ | ⟨a6,
    _ | ⟨a7, _ | ⟨a8, _ | ⟨a9, _ | ⟨a10, _ | ⟨a11, _ | ⟨a12, _ | ⟨a13,
    _ | ⟨a14, rest⟩⟩⟩⟩⟩⟩⟩⟩⟩⟩⟩⟩⟩⟩⟩
  · exact PResult.noConfusion h
  · exact PResult.noConfusion h
  · exact PResult.noConfusion h
  · exact PResult.noConfusion h
  · exact PResult.noConfusion h
  · exact PResult.noConfusion h
  · exact PResult.noConfusion h
  · exact PResult.noConfusion h
  · exact PResult.noConfusion h
  · exact PResult.noConfusion h
  · exact PResult.noConfusion h
  · exact PResult.noConfusion h
  · exact PResult.noConfusion h
  · exact PResult.noConfusion h
  · exact PResult.noConfusion h
  · rw [decode_cons15] at h
    cases hb : DispatchMessageBody.from_starknet_event_data rest with
    | err e => rw [hb] at h; cases h
    | panic m => rw [hb] at h; cases h
    | ok body =>
      rw [hb] at h
      simp only [PResult.bind_ok] at h
      injection h with h2
      subst h2
      have hne := body_ok_nonempty rest body hb
      have hpos : 0 < rest.length := List.length_pos.mpr hne
      refine ⟨?_, ?_, ?_, ?_, ?_, ?_, ?_, ?_⟩
      · simp only [List.length_cons]
        omega
      · dsimp only
        rfl
      · dsimp only
        rfl
      · dsimp only
        rfl
      · dsimp only
        rfl
      · dsimp only
        rfl
      · dsimp only
        rfl
      · dsimp only
        exact hb

/-- Witness for C4 at a concrete successfully decoded event. -/
theorem dispatch_header_layout_witness :
    16 ≤ witnessEventData.length ∧
    witnessDispatchEvent.message.header.version =
      fromFieldBytes 1 (witnessEventData.getD 5 0) ∧
    witnessDispatchEvent.message.header.nonce =
      fromFieldBytes 4 (witnessEventData.getD 6 0) ∧
    witnessDispatchEvent.message.header.origin =
      fromFieldBytes 4 (witnessEventData.getD 7 0) ∧
    witnessDispatchEvent.message.header.sender =
      U256.from_words (fromFieldBytes 16 (witnessEventData.getD 8 0))
        (fromFieldBytes 16 (witnessEventData.getD 9 0)) ∧
    witnessDispatchEvent.message.header.destination =
      fromFieldBytes 4 (witnessEventData.getD 10 0) ∧
    witnessDispatchEvent.message.header.recipient =
      U256.from_words (fromFieldBytes 16 (witnessEventData.getD 11 0))
        (fromFieldBytes 16 (witnessEventData.getD 12 0)) ∧
    DispatchMessageBody.from_starknet_event_data (witnessEventData.drop 15) =
      .ok witnessDispatchEvent.message.body :=
  dispatch_header_layout witnessEventData witnessDispatchEvent (by decide)

/-- Claim C9: for every registry value and every chain name, `get_validators`
returns an empty result exactly when the chain was not configured, and
`is_supported_chain` holds iff the chain appears in `chain_names`; all three read
operations are total lookups, so they have no error path. -/
theorem registry_read_ops_consistent
    (m : List (String × List (Nat × Nat))) (c : String) :
    (HyperlaneValidatorsMapping.get_validators m c = none ↔
      c ∉ HyperlaneValidatorsMapping.chain_names m) ∧
    (HyperlaneValidatorsMapping.is_supported_chain m c = true ↔
      c ∈ HyperlaneValidatorsMapping.chain_names m) := by
  unfold HyperlaneValidatorsMapping.get_validators
    HyperlaneValidatorsMapping.is_supported_chain HyperlaneValidatorsMapping.chain_names
  induction m with
  | nil => simp [List.lookup]
  | cons p t ih =>
    obtain ⟨k, v⟩ := p
    by_cases hck : c = k
    · subst hck
      simp [List.lookup]
    · have hbeq : (c == k) = false := by
        simp [hck]
      simp only [List.lookup, hbeq, List.map_cons, List.mem_cons]
      constructor
      · constructor
        · intro hnone hmem
          rcases hmem with hmem | hmem
          · exact hck hmem
          · exact (ih.1.mp hnone) hmem
        · intro hnmem
          exact ih.1.mpr (fun hmem => hnmem (Or.inr hmem))
      · constructor
        · intro hsome
          exact Or.inr (ih.2.mp hsome)
        · intro hmem
          rcases hmem with hmem | hmem
          · exact absurd hmem hck
          · exact ih.2.mpr hmem

/-- Witness for C9 at a concrete registry and chain name. -/
theorem registry_read_ops_consistent_witness :
    (HyperlaneValidatorsMapping.get_validators [("base", [(7, 0)])] "kakarot" = none ↔
      "kakarot" ∉ HyperlaneValidatorsMapping.chain_names [("base", [(7, 0)])]) ∧
    (HyperlaneValidatorsMapping.is_supported_chain [("base", [(7, 0)])] "kakarot" = true ↔
      "kakarot" ∈ HyperlaneValidatorsMapping.chain_names [("base", [(7, 0)])]) :=
  registry_read_ops_consistent [("base", [(7, 0)])] "kakarot"

theorem fromConfigGo_first_failure (ext : EvmExternals)
    (pre : List (String × ChainConfig)) (entry : String × ChainConfig)
    (post : List (String × ChainConfig)) (acc : List (String × List (Nat × Nat)))
    (hpre : ∀ e ∈ pre, ∃ v, resolveChain ext e = .ok v)
    (hfail : ∀ v, resolveChain ext entry ≠ .ok v) :
    ∃ err, fromConfigGo ext (pre ++ entry :: post) acc = .error err ∧
      resolveChain ext entry = .error err := by
  induction pre generalizing acc with
  | nil =>
    cases hres : resolveChain ext entry with
    | ok v => exact absurd hres (hfail v)
    | error e =>
      refine ⟨e, ?_, rfl⟩
      simp [fromConfigGo, hres]
  | cons p t ih =>
    obtain ⟨v, hv⟩ := hpre p (by simp)
    have hrest : ∀ e ∈ t, ∃ w, resolveChain ext e = .ok w :=
      fun e he => hpre e (by simp [he])
    simpa [fromConfigGo, hv] using ih (acc ++ [(p.1, v)]) hrest

/-- Claim C6 (amended): the first chain that fails to resolve aborts the whole
registry build with an error and no registry value at all; the
invalid-contract-address failure names the offending chain in its error, while an
invalid RPC URL or a failed validator query propagates the underlying error
unchanged, without the chain name. -/
theorem from_config_fail_fast (ext : EvmExternals) (config : EvmConfig)
    (pre : List (String × ChainConfig)) (entry : String × ChainConfig)
    (post : List (String × ChainConfig))
    (hsplit : config.chains = pre ++ entry :: post)
    (hpre : ∀ e ∈ pre, ∃ v, resolveChain ext e = .ok v)
    (hfail : ∀ v, resolveChain ext entry ≠ .ok v) :
    ∃ err, HyperlaneValidatorsMapping.from_config ext config = .error err ∧
      resolveChain ext entry = .error err ∧
      (∀ m, HyperlaneValidatorsMapping.from_config ext config ≠ .ok m) ∧
      (∀ chain msg, err = .invalidAddress chain msg → chain = entry.1) ∧
      (∀ msg, err = .urlParse msg → ext.parseUrl entry.2.rpc_url = .error msg) ∧
      (∀ msg, err = .rpc msg →
        ext.getValidatorsWithIndex entry.2.rpc_url entry.2.hyperlane_address =
          .error msg) := by
  obtain ⟨err, h1, h2⟩ := fromConfigGo_first_failure ext pre entry post [] hpre hfail
  have hmain : HyperlaneValidatorsMapping.from_config ext config = .error err := by
    unfold HyperlaneValidatorsMapping.from_config
    rw [hsplit]
    exact h1
  refine ⟨err, hmain, h2, ?_, ?_, ?_, ?_⟩
  · intro m hm
    rw [hmain] at hm
    cases hm
  · intro chain msg hmsg
    subst hmsg
    unfold resolveChain at h2
    split at h2
    · cases h2
    · split at h2
      · cases h2
        rfl
      · split at h2
        · cases h2
        · cases h2
  · intro msg hmsg
    subst hmsg
    unfold resolveChain at h2
    split at h2
    · cases h2
      assumption
    · split at h2
      · cases h2
      · split at h2
        · cases h2
        · cases h2
  · intro msg hmsg
    subst hmsg
    unfold resolveChain at h2
    split at h2
    · cases h2
    · split at h2
      · cases h2
      · split at h2
        · cases h2
          assumption
        · cases h2

/-- Counterexample to C6 as stated: a chain failing on an invalid RPC URL aborts
the build with the URL-parse error propagated unchanged, and that error does not
name the offending chain. -/
theorem from_config_error_without_chain_name :
    HyperlaneValidatorsMapping.from_config
      ⟨fun _ => .error "relative URL without a base",
        fun _ => .ok (), fun _ _ => .ok []⟩
      ⟨[("newchain", ⟨"bad", "0x0"⟩)]⟩ =
      .error (.urlParse "relative URL without a base") ∧
    ¬ ("newchain".toList <:+:
        (RegistryError.urlParse "relative URL without a base").message.toList) := by
  constructor
  · rfl
  · decide

/-- Witness for the amended C6 at a concrete failing configuration. -/
theorem from_config_fail_fast_witness :
    ∃ err, HyperlaneValidatorsMapping.from_config
        ⟨fun _ => .error "invalid url", fun _ => .ok (), fun _ _ => .ok []⟩
        ⟨[("chainA", ⟨"nota url", "0xdead"⟩)]⟩ = .error err ∧
      resolveChain
        ⟨fun _ => .error "invalid url", fun _ => .ok (), fun _ _ => .ok []⟩
        ("chainA", ⟨"nota url", "0xdead"⟩) = .error err ∧
      (∀ m, HyperlaneValidatorsMapping.from_config
        ⟨fun _ => .error "invalid url", fun _ => .ok (), fun _ _ => .ok []⟩
        ⟨[("chainA", ⟨"nota url", "0xdead"⟩)]⟩ ≠ .ok m) ∧
      (∀ chain msg, err = .invalidAddress chain msg →
        chain = ("chainA", ChainConfig.mk "nota url" "0xdead").1) ∧
      (∀ msg, err = .urlParse msg →
        (fun (_ : String) => (.error "invalid url" : Except String Unit)) "nota url" =
          .error msg) ∧
      (∀ msg, err = .rpc msg →
        (fun (_ _ : String) => (.ok [] : Except String (List (Nat × Nat))))
          "nota url" "0xdead" = .error msg) :=
  from_config_fail_fast
    ⟨fun _ => .error "invalid url", fun _ => .ok (), fun _ _ => .ok []⟩
    ⟨[("chainA", ⟨"nota url", "0xdead"⟩)]⟩
    [] ("chainA", ⟨"nota url", "0xdead"⟩) [] rfl (by simp)
    (fun v h => Except.noConfusion h)

/-- Claim C2 refuted (code bug): `fetch` can never return an empty result; an
absent object surfaces as the transport's not-found error propagated through `?`,
while a present-but-corrupted object surfaces as a deserialize error. -/
theorem gcs_fetch_missing_object_is_error :
    (∀ store deser index, GcsStorageClient.fetch store deser index ≠ .ok none) ∧
    GcsStorageClient.fetch (fun _ => none) (fun _ => .error "unreachable") 0 =
      .error (.notFound "checkpoint_0_with_id.json") ∧
    GcsStorageClient.fetch (fun _ => some [123]) (fun _ => .error "invalid json") 0 =
      .error (.deserialize "invalid json") := by
  refine ⟨?_, ?_, ?_⟩
  · intro store deser index h
    unfold GcsStorageClient.fetch at h
    split at h
    · cases h
    · split at h
      · cases h
      · simp at h
  · rfl
  · rfl

theorem parseUpdates_ok_length (n : Nat) :
    ∀ (data : List Nat) (acc us : List DispatchUpdate) (rest : List Nat),
    parseUpdates n data acc = .ok (us, rest) → us.length = n + acc.length := by
  induction n with
  | zero =>
    intro data acc us rest h
    simp only [parseUpdates] at h
    cases h
    simp
  | succ n ih =>
    intro data acc us rest h
    rw [parseUpdates] at h
    split at h
    · cases h
    · cases h
    · split at h
      split at h
      · cases h
      · cases h
      · have hlen := ih _ _ _ _ h
        simp only [List.length_cons] at hlen
        omega

theorem parseUpdates_err_shape (n : Nat) :
    ∀ (data : List Nat) (acc : List DispatchUpdate) (e : DecodeError),
    parseUpdates n data acc = .err e →
    ∃ inner, e = .contextWrap "Failed to parse update" inner := by
  induction n with
  | zero =>
    intro data acc e h
    simp only [parseUpdates] at h
    cases h
  | succ n ih =>
    intro data acc e h
    rw [parseUpdates] at h
    split at h
    · cases h
      exact ⟨_, rfl⟩
    · cases h
    · split at h
      split at h
      · exact absurd (by assumption) (drain_ne_err _ _ _)
      · cases h
      · exact ih _ _ _ h

/-- Claim C1 refuted (code bug): the `UpdateCountMismatch` error is unreachable —
the update loop always parses exactly the declared number of updates or aborts
with a different error or a panic — and a body stream whose declared count exceeds
what its bytes can supply (here `nb_updated` is 1 with only 15 payload bytes)
panics inside `Vec::drain` instead of returning the error. -/
theorem update_count_mismatch_never_returned :
    DispatchMessageBody.from_starknet_event_data [2 ^ 120] =
      .panic "range end out of bounds" ∧
    ∀ felts d p, DispatchMessageBody.from_starknet_event_data felts ≠
      .err (.updateCountMismatch d p) := by
  constructor
  · decide
  · intro felts d p h
    unfold DispatchMessageBody.from_starknet_event_data at h
    dsimp only at h
    cases hd : @drain DecodeError 1 (flattenBody felts) with
    | err e => exact absurd hd (drain_ne_err _ _ _)
    | panic m =>
      rw [hd] at h
      cases h
    | ok pr =>
      obtain ⟨nbB, rest⟩ := pr
      rw [hd] at h
      simp only [PResult.monad_bind_eq, PResult.bind_ok] at h
      cases hp : parseUpdates (fromBeBytes nbB) rest [] with
      | err e =>
        rw [hp] at h
        obtain ⟨inner, hi⟩ := parseUpdates_err_shape _ _ _ _ hp
        subst hi
        cases h
      | panic m =>
        rw [hp] at h
        cases h
      | ok pr2 =>
        obtain ⟨us, rest2⟩ := pr2
        rw [hp] at h
        dsimp only at h
        have hlen := parseUpdates_ok_length _ _ _ _ _ hp
        simp only [List.length_nil, Nat.add_zero] at hlen
        rw [if_neg (by omega)] at h
        cases h

theorem beBytes32_drop16 (n : Nat) :
    (beBytes 32 n).drop 16 = beBytes 16 (n % 256 ^ 16) := by
  rw [show (32 : Nat) = 16 + 16 from rfl, beBytes_split 16 16 n]
  exact List.drop_left' (beBytes_length _ _)

theorem flattenBody_map_mod (r : List Nat) :
    flattenBody (r.map (fun fe => fe % 256 ^ 16)) = flattenBody r := by
  induction r with
  | nil => rfl
  | cons fe t ih =>
    simp only [List.map_cons, flattenBody, ih, beBytes32_drop16,
      Nat.mod_mod_of_dvd _ (dvd_refl (256 ^ 16))]

theorem body_map_mod (r : List Nat) :
    DispatchMessageBody.from_starknet_event_data (r.map (fun fe => fe % 256 ^ 16)) =
    DispatchMessageBody.from_starknet_event_data r := by
  unfold DispatchMessageBody.from_starknet_event_data
  rw [flattenBody_map_mod]

theorem decode_normalize (data : List Nat) :
    DispatchEvent.from_starknet_event_data
      (data.take 15 ++ (data.drop 15).map (fun fe => fe % 256 ^ 16)) =
    DispatchEvent.from_starknet_event_data data := by
  rcases data with _ | ⟨a0, _ | ⟨a1, _ | ⟨a2, _ | ⟨a3, _ | ⟨a4, _ | ⟨a5, _ | ⟨a6,
    _ | ⟨a7, _ | ⟨a8, _ | ⟨a9, _ | ⟨a10, _ | ⟨a11, _ | ⟨a12, _ | ⟨a13,
    _ | ⟨a14, rest⟩⟩⟩⟩⟩⟩⟩⟩⟩⟩⟩⟩⟩⟩⟩
  · rfl
  · rfl
  · rfl
  · rfl
  · rfl
  · rfl
  · rfl
  · rfl
  · rfl
  · rfl
  · rfl
  · rfl
  · rfl
  · rfl
  · rfl
  · show DispatchEvent.from_starknet_event_data
        (a0 :: a1 :: a2 :: a3 :: a4 :: a5 :: a6 :: a7 :: a8 :: a9 :: a10 :: a11 ::
          a12 :: a13 :: a14 :: rest.map (fun fe => fe % 256 ^ 16)) = _
    rw [decode_cons15, decode_cons15, body_map_mod]

/-- Claim C8: decoding never depends on the upper 16 bytes of the body field
elements: two equal-length sequences agreeing on the first 15 elements and, for the
remaining elements, agreeing pairwise modulo `2 ^ 128` (the low 16 bytes of the
32-byte buffers), decode to equal results — no check on the discarded bytes. -/
theorem decode_ignores_high_body_bytes (d1 d2 : List Nat)
    (hlen : d1.length = d2.length)
    (hfirst : ∀ i < 15, d1.getD i 0 = d2.getD i 0)
    (hlow : ∀ i < d1.length, 15 ≤ i → d1.getD i 0 % 256 ^ 16 = d2.getD i 0 % 256 ^ 16) :
    DispatchEvent.from_starknet_event_data d1 =
    DispatchEvent.from_starknet_event_data d2 := by
  rw [← decode_normalize d1, ← decode_normalize d2]
  have htake : d1.take 15 = d2.take 15 := by
    apply List.ext_getElem
    · simp [hlen]
    · intro i hi1 hi2
      simp only [List.length_take] at hi1
      have hi15 : i < 15 := lt_of_lt_of_le hi1 (min_le_left _ _)
      have hil : i < d1.length := lt_of_lt_of_le hi1 (min_le_right _ _)
      rw [List.getElem_take, List.getElem_take]
      have h := hfirst i hi15
      rwa [List.getD_eq_getElem _ _ hil, List.getD_eq_getElem _ _ (hlen ▸ hil)] at h
  have hmap : (d1.drop 15).map (fun fe => fe % 256 ^ 16) =
      (d2.drop 15).map (fun fe => fe % 256 ^ 16) := by
    apply List.ext_getElem
    · simp [hlen]
    · intro i hi1 hi2
      simp only [List.length_map, List.length_drop] at hi1 hi2
      rw [List.getElem_map, List.getElem_map, List.getElem_drop, List.getElem_drop]
      have hb1 : 15 + i < d1.length := by omega
      have hb2 : 15 + i < d2.length := by omega
      have h := hlow (15 + i) hb1 (by omega)
      rwa [List.getD_eq_getElem _ _ hb1, List.getD_eq_getElem _ _ hb2] at h
  rw [htake, hmap]

/-- Witness for C8: two concrete sequences differing only in the upper 16 bytes of
their body elements decode to the same result. -/
theorem decode_ignores_high_body_bytes_witness :
    DispatchEvent.from_starknet_event_data
      (List.replicate 15 0 ++ [2 ^ 120, 7]) =
    DispatchEvent.from_starknet_event_data
      (List.replicate 15 0 ++ [2 ^ 120 + 2 ^ 200, 7 + 2 ^ 130]) :=
  decode_ignores_high_body_bytes
    (List.replicate 15 0 ++ [2 ^ 120, 7])
    (List.replicate 15 0 ++ [2 ^ 120 + 2 ^ 200, 7 + 2 ^ 130])
    (by decide) (by decide) (by decide)

theorem bind_eq_ok {ε α β : Type} (x : PResult ε α) (f : α → PResult ε β) (b : β)
    (h : PResult.bind x f = .ok b) : ∃ a, x = .ok a ∧ f a = .ok b := by
  cases x with
  | ok a => exact ⟨a, rfl, h⟩
  | err e => cases h
  | panic m => cases h

theorem build_feed_id_low96_zeros (ac ft hi lo : Nat) (hlo : lo < 2 ^ 96) :
    ((build_feed_id ac ft hi lo).toList.drop 42).take 8 = List.replicate 8 '0' := by
  rw [build_feed_id_toList]
  rw [show (42 : Nat) = 41 + 1 from rfl, List.drop_succ_cons,
    show (41 : Nat) = 40 + 1 from rfl, List.drop_succ_cons]
  rw [hexEncode_append]
  rw [List.drop_left' (by rw [hexEncode_length]; simp)]
  have hdiv : lo / 256 ^ 12 = 0 :=
    Nat.div_eq_of_lt (lt_of_lt_of_le hlo (le_of_eq (by norm_num)))
  rw [show (16 : Nat) = 4 + 12 from rfl, beBytes_split 4 12 lo, hdiv, beBytes_zero,
    hexEncode_append]
  rw [List.take_left' (by rw [hexEncode_length]; simp)]
  decide

/-- Claim C10: every successfully decoded update reads its pair-id low half from
only 12 stream bytes zero-padded at the top to 16, so the low half is below
`2 ^ 96`; consequently the emitted feed identifier hex-encodes the top four bytes
of the low half as "00000000"; and the update's pair id equals the value read from
the stream, never the zero placeholder set inside the SpotMedian payload parser. -/
theorem decoded_update_pair_id_invariants (data : List Nat) (u : DispatchUpdate)
    (hbytes : ∀ b ∈ data, b < 256)
    (h : DispatchUpdate.from_starknet_event_data data = .ok u) :
    ∃ smu feed_id, u = .spotMedian smu feed_id ∧
      smu.pair_id.low < 2 ^ 96 ∧
      smu.pair_id = U256.from_words
        (fromBeBytes (List.replicate 4 0 ++ (data.drop 20).take 12))
        (fromBeBytes ((data.drop 4).take 16)) ∧
      feed_id = build_feed_id (fromBeBytes (data.take 2))
        (fromBeBytes ((data.drop 2).take 2))
        (fromBeBytes ((data.drop 4).take 16))
        (fromBeBytes (List.replicate 4 0 ++ (data.drop 20).take 12)) ∧
      (feed_id.toList.drop 42).take 8 = List.replicate 8 '0' := by
  unfold DispatchUpdate.from_starknet_event_data at h
  simp only [PResult.monad_bind_eq] at h
  obtain ⟨⟨acB, data2⟩, h2, h⟩ := bind_eq_ok _ _ _ h
  obtain ⟨hle2, hac, hd2⟩ := drain_eq_ok _ _ _ _ h2
  subst hac; subst hd2
  dsimp only at h
  obtain ⟨⟨ftB, data3⟩, h4, h⟩ := bind_eq_ok _ _ _ h
  obtain ⟨hle4, hft, hd3⟩ := drain_eq_ok _ _ _ _ h4
  subst hft; subst hd3
  dsimp only at h
  cases htf : FeedType.tryFrom (fromBeBytes ((data.drop 2).take 2)) with
  | error e =>
    rw [htf] at h
    cases h
  | ok ft =>
    rw [htf] at h
    dsimp only at h
    obtain ⟨⟨phB, data4⟩, h5, h⟩ := bind_eq_ok _ _ _ h
    obtain ⟨hle5, hph, hd4⟩ := drain_eq_ok _ _ _ _ h5
    subst hph; subst hd4
    dsimp only at h
    obtain ⟨⟨plB, data5⟩, h6, h⟩ := bind_eq_ok _ _ _ h
    obtain ⟨hle6, hpl, hd5⟩ := drain_eq_ok _ _ _ _ h6
    subst hpl; subst hd5
    dsimp only at h
    cases ft
    obtain ⟨res, hs, h⟩ := bind_eq_ok _ _ _ h
    injection h with h7
    subst h7
    have hdc4 : (data.drop 2).drop 2 = data.drop 4 := by
      rw [List.drop_drop]
    have hdc20 : ((data.drop 2).drop 2).drop 16 = data.drop 20 := by
      rw [List.drop_drop, List.drop_drop]
    have hlenE : ((data.drop 20).take 12).length = 12 := by
      have h12 : 12 ≤ (data.drop 20).length := by
        rw [← hdc20]
        exact hle6
      rw [List.length_take]
      omega
    have hmemE : ∀ b ∈ (data.drop 20).take 12, b < 256 := by
      intro b hb
      exact hbytes b (List.drop_subset _ _ (List.take_subset _ _ hb))
    have hlow96 :
        fromBeBytes (List.replicate 4 0 ++ (data.drop 20).take 12) < 2 ^ 96 := by
      rw [fromBeBytes_replicate_zero]
      have := fromBeBytes_lt _ hmemE
      rw [hlenE] at this
      exact lt_of_lt_of_le this (le_of_eq (by norm_num))
    refine ⟨{ res with pair_id := (U256.from_words
        (fromBeBytes (List.replicate 4 0 ++ (data.drop 20).take 12))
        (fromBeBytes ((data.drop 4).take 16))) },
      build_feed_id (fromBeBytes (data.take 2))
        (fromBeBytes ((data.drop 2).take 2))
        (fromBeBytes ((data.drop 4).take 16))
        (fromBeBytes (List.replicate 4 0 ++ (data.drop 20).take 12)),
      ?_, ?_, ?_, ?_, ?_⟩
    · rw [← hdc20, ← hdc4]
    · exact hlow96
    · rfl
    · rfl
    · exact build_feed_id_low96_zeros _ _ _ _ hlow96

/-- Witness for C10 at a concrete successfully decoded update. -/
theorem decoded_update_pair_id_invariants_witness :
    ∃ smu feed_id, witnessUpdate = .spotMedian smu feed_id ∧
      smu.pair_id.low < 2 ^ 96 ∧
      smu.pair_id = U256.from_words
        (fromBeBytes (List.replicate 4 0 ++ (witnessUpdateBytes.drop 20).take 12))
        (fromBeBytes ((witnessUpdateBytes.drop 4).take 16)) ∧
      feed_id = build_feed_id (fromBeBytes (witnessUpdateBytes.take 2))
        (fromBeBytes ((witnessUpdateBytes.drop 2).take 2))
        (fromBeBytes ((witnessUpdateBytes.drop 4).take 16))
        (fromBeBytes (List.replicate 4 0 ++ (witnessUpdateBytes.drop 20).take 12)) ∧
      (feed_id.toList.drop 42).take 8 = List.replicate 8 '0' :=
  decoded_update_pair_id_invariants witnessUpdateBytes witnessUpdate
    (by decide) (by decide)

/-- Witness for C7 at a concrete quadruple. -/
theorem build_feed_id_deterministic_injective_witness :
    (∀ ac2 ft2 ph2 pl2b, 1 = ac2 → 2 = ft2 → 3 = ph2 → 4 = pl2b →
      build_feed_id 1 2 3 4 = build_feed_id ac2 ft2 ph2 pl2b) ∧
    (4 ≠ 5 → build_feed_id 1 2 3 4 ≠ build_feed_id 1 2 3 5) :=
  build_feed_id_deterministic_injective 1 2 3 4 5 (by norm_num) (by norm_num)

end Theoros
